import Mathlib

/-!
# Verification of the kcc-go fake-SOAP client core

This development embeds the SOAP client core of the `kcc-go` repository
(`fakesoap.go`, `http.go`) in Lean 4 and proves/refutes the specification
claims about it.

Modelling conventions:

* `soapEnvelope`, `soapHeader`, `soapFooter` are embedded directly over
  `String` (Go's `bytes.Buffer` writes are string concatenation).
* Go's `encoding/xml` streaming decoder (a standard-library dependency, not
  repository code) is modelled at the token level: an input stream is a list
  of tokenizer outcomes (`TokRes`), each either a token or a tokenizer
  error (`decoder.Token()` returning a nil token together with an error).
  `parseSOAPResponse` is embedded as a scan over that list, and
  `decoder.DecodeElement` as a stack-based construction of a generic element
  tree, mirroring how the Go decoder consumes tokens (a mismatched end tag
  or an end of stream inside an element is a syntax-style error in Go).
* The socket transport's `DoRequest` loop is embedded as a deterministic
  function over a script of per-iteration environment outcomes, recording
  the pool operations (`Remove` / release-by-`Close` / body close) it
  performs.
* The external `gncp` connection pool is modelled from the spec as a
  transition system over atomic acquire/release/remove operations.
-/

/-- An XML name, as in Go `xml.Name`: a resolved namespace and a local name.
`parseSOAPResponse` only ever inspects the local name. -/
structure XName where
  space : String
  localName : String
deriving DecidableEq, Repr

/-- An XML attribute, as in Go `xml.Attr`. -/
structure XAttr where
  name : XName
  value : String
deriving DecidableEq, Repr

/-- An XML token, as returned by Go `xml.Decoder.Token`. -/
inductive Tok where
  | startEl (name : XName) (attrs : List XAttr)
  | endEl (name : XName)
  | cdata (s : String)
  | procInst (target : String)
  | comment (s : String)
deriving DecidableEq, Repr

/-- One outcome of `decoder.Token()`: either a token, or a tokenizer error
(in which case Go returns a nil token together with the error). -/
inductive TokRes where
  | tok (t : Tok)
  | err
deriving DecidableEq, Repr

/-- A generic decoded XML element tree: the value produced by decoding one
element (Go `DecodeElement` materialises the element; we model the decoded
value as the element's full structure). -/
inductive XmlNode where
  | elem (name : XName) (attrs : List XAttr) (children : List XmlNode)
  | text (s : String)
deriving Repr

/-- Errors the embedded client can return. The Go code formats these with
`fmt.Errorf`; we keep them symbolic. `unmarshalFailed` is the
`failed to unmarshal SOAP response body` error (the spec's
"no matching body content" failure); `xmlSyntaxError` stands for a
surfaced `xml.SyntaxError` from the tokenizer; `unexpectedEOF` for the
stream ending inside an element being decoded. -/
inductive SoapError where
  | unmarshalFailed
  | xmlSyntaxError
  | unexpectedEOF
  | openSocketFailed
  | readSocketFailed
  | badStatus (status : Nat)
deriving DecidableEq, Repr

/-- A frame of the in-progress decode: the open element's name, its
attributes, and the children decoded so far. -/
abbrev Frame := XName × List XAttr × List XmlNode

/-- The token-consuming core of Go `xml.Decoder.DecodeElement`: with the
start tag of the current element already consumed (the head frame), read
tokens until the matching end tag, building the element tree. A tokenizer
error is surfaced; end of stream inside an element and a mismatched end tag
are errors (Go reports both as syntax-style errors). -/
def decodeLoop : Frame → List Frame → List TokRes → Except SoapError (XmlNode × List TokRes)
  | _, _, [] => .error .unexpectedEOF
  | _, _, .err :: _ => .error .xmlSyntaxError
  | (n, a, kids), stk, .tok t :: rest =>
    match t with
    | .startEl n' a' => decodeLoop (n', a', []) ((n, a, kids) :: stk) rest
    | .endEl n' =>
      if n' = n then
        match stk with
        | [] => .ok (.elem n a kids, rest)
        | (m, b, ks) :: stk' => decodeLoop (m, b, ks ++ [.elem n a kids]) stk' rest
      else .error .xmlSyntaxError
    | .cdata s => decodeLoop (n, a, kids ++ [.text s]) stk rest
    | .procInst _ => decodeLoop (n, a, kids) stk rest
    | .comment _ => decodeLoop (n, a, kids) stk rest

/-- Go `decoder.DecodeElement(v, &se)`: decode the element whose start tag
`se` (name `n`, attributes `a`) was just consumed, from the remaining
stream. Returns the decoded element and the unread remainder. -/
def decodeElement (n : XName) (a : List XAttr) (ts : List TokRes) :
    Except SoapError (XmlNode × List TokRes) :=
  decodeLoop (n, a, []) [] ts

/-- The token-scan loop of `parseSOAPResponse` (fakesoap.go lines 70-87),
with `m` the `match` flag: each iteration takes one `decoder.Token()`
outcome; a nil token (end of stream, or a tokenizer error whose error value
the code discards) breaks the loop, falling through to the generic
unmarshal failure. On a start element: if `match` is already set the
element is decoded and returned; otherwise `match` is set when the local
name is `Body`. All other tokens are skipped. -/
def soapScan : Bool → List TokRes → Except SoapError XmlNode
  | _, [] => .error .unmarshalFailed
  | _, .err :: _ => .error .unmarshalFailed
  | m, .tok t :: rest =>
    match t with
    | .startEl n a =>
      if m then (decodeElement n a rest).map (fun p => p.1)
      else if n.localName = "Body" then soapScan true rest else soapScan false rest
    | _ => soapScan m rest

/-- Go `parseSOAPResponse(data, v)` (fakesoap.go lines 67-90), over the
token stream of `data`; the decoded value written into `v` is returned. -/
def parseSOAPResponse (ts : List TokRes) : Except SoapError XmlNode :=
  soapScan false ts

/-- The `soapHeader` constant of fakesoap.go (lines 37-38): a Go raw string
literal spanning two lines, so it contains a newline between the XML
declaration and the `<SOAP-ENV:Envelope` open tag. -/
def soapHeader : String :=
  "<?xml version=\"1.0\" encoding=\"UTF-8\"?>\n<SOAP-ENV:Envelope xmlns:SOAP-ENV=\"http://schemas.xmlsoap.org/soap/envelope/\" xmlns:SOAP-ENC=\"http://schemas.xmlsoap.org/soap/encoding/\" xmlns:xsi=\"http://www.w3.org/2001/XMLSchema-instance\" xmlns:xsd=\"http://www.w3.org/2001/XMLSchema\" xmlns:xop=\"http://www.w3.org/2004/08/xop/include\" xmlns:xmlmime=\"http://www.w3.org/2004/11/xmlmime\" xmlns:ns=\"urn:zarafa\"><SOAP-ENV:Body SOAP-ENV:encodingStyle=\"http://schemas.xmlsoap.org/soap/encoding/\">"

/-- The `soapFooter` constant of fakesoap.go (line 39). -/
def soapFooter : String := "</SOAP-ENV:Body></SOAP-ENV:Envelope>"

/-- The XML declaration part of the envelope header. -/
def soapHeaderDecl : String := "<?xml version=\"1.0\" encoding=\"UTF-8\"?>"

/-- The envelope-open part of the envelope header. -/
def soapHeaderEnvelope : String :=
  "<SOAP-ENV:Envelope xmlns:SOAP-ENV=\"http://schemas.xmlsoap.org/soap/envelope/\" xmlns:SOAP-ENC=\"http://schemas.xmlsoap.org/soap/encoding/\" xmlns:xsi=\"http://www.w3.org/2001/XMLSchema-instance\" xmlns:xsd=\"http://www.w3.org/2001/XMLSchema\" xmlns:xop=\"http://www.w3.org/2004/08/xop/include\" xmlns:xmlmime=\"http://www.w3.org/2004/11/xmlmime\" xmlns:ns=\"urn:zarafa\"><SOAP-ENV:Body SOAP-ENV:encodingStyle=\"http://schemas.xmlsoap.org/soap/encoding/\">"

/-- The header literal as printed in the spec's External Interfaces section:
the same text but on one line, with no newline between the XML declaration
and the envelope open tag. -/
def specHeader : String :=
  "<?xml version=\"1.0\" encoding=\"UTF-8\"?><SOAP-ENV:Envelope xmlns:SOAP-ENV=\"http://schemas.xmlsoap.org/soap/envelope/\" xmlns:SOAP-ENC=\"http://schemas.xmlsoap.org/soap/encoding/\" xmlns:xsi=\"http://www.w3.org/2001/XMLSchema-instance\" xmlns:xsd=\"http://www.w3.org/2001/XMLSchema\" xmlns:xop=\"http://www.w3.org/2004/08/xop/include\" xmlns:xmlmime=\"http://www.w3.org/2004/11/xmlmime\" xmlns:ns=\"urn:zarafa\"><SOAP-ENV:Body SOAP-ENV:encodingStyle=\"http://schemas.xmlsoap.org/soap/encoding/\">"

/-- Go `soapEnvelope(payload)` (fakesoap.go lines 42-48): writes header,
payload, footer into a fresh buffer. -/
def soapEnvelope (payload : String) : String :=
  soapHeader ++ payload ++ soapFooter

/-- The namespace URI bound to `SOAP-ENV` in the envelope header. -/
def soapEnvNS : String := "http://schemas.xmlsoap.org/soap/envelope/"

/-- The resolved name of the header's `SOAP-ENV:Envelope` element. -/
def envelopeName : XName := ⟨soapEnvNS, "Envelope"⟩

/-- The resolved name of the header's `SOAP-ENV:Body` element. -/
def bodyName : XName := ⟨soapEnvNS, "Body"⟩

/-- The attributes the tokenizer reports on the `SOAP-ENV:Envelope` open
tag: its namespace declarations. -/
def envelopeAttrs : List XAttr :=
  [⟨⟨"xmlns", "SOAP-ENV"⟩, "http://schemas.xmlsoap.org/soap/envelope/"⟩,
    ⟨⟨"xmlns", "SOAP-ENC"⟩, "http://schemas.xmlsoap.org/soap/encoding/"⟩,
    ⟨⟨"xmlns", "xsi"⟩, "http://www.w3.org/2001/XMLSchema-instance"⟩,
    ⟨⟨"xmlns", "xsd"⟩, "http://www.w3.org/2001/XMLSchema"⟩,
    ⟨⟨"xmlns", "xop"⟩, "http://www.w3.org/2004/08/xop/include"⟩,
    ⟨⟨"xmlns", "xmlmime"⟩, "http://www.w3.org/2004/11/xmlmime"⟩,
    ⟨⟨"xmlns", "ns"⟩, "urn:zarafa"⟩]

/-- The attributes on the `SOAP-ENV:Body` open tag. -/
def bodyAttrs : List XAttr :=
  [⟨⟨soapEnvNS, "encodingStyle"⟩, "http://schemas.xmlsoap.org/soap/encoding/"⟩]

/-- The token stream the Go XML tokenizer produces for `soapHeader`: the XML
declaration, the newline between the two lines of the raw-string literal,
and the two open tags. -/
def headerTokens : List TokRes :=
  [.tok (.procInst "xml"), .tok (.cdata "\n"),
    .tok (.startEl envelopeName envelopeAttrs),
    .tok (.startEl bodyName bodyAttrs)]

/-- The token stream the tokenizer produces for `soapFooter`: the two close
tags. -/
def footerTokens : List TokRes :=
  [.tok (.endEl bodyName), .tok (.endEl envelopeName)]

mutual

/-- Serialization of an element tree back into the token stream the
tokenizer yields for its markup (mutually with lists of children). -/
def tokensOf : XmlNode → List Tok
  | .text s => [.cdata s]
  | .elem n a cs => .startEl n a :: tokensOfList cs ++ [.endEl n]

/-- Serialization of a list of sibling nodes. -/
def tokensOfList : List XmlNode → List Tok
  | [] => []
  | c :: cs => tokensOf c ++ tokensOfList cs

end

mutual

/-- Consuming the tokens of one serialized node appends that node to the
current frame's children. -/
theorem decodeLoop_consume (c : XmlNode) (n : XName) (a : List XAttr)
    (kids : List XmlNode) (stk : List Frame) (r : List TokRes) :
    decodeLoop (n, a, kids) stk ((tokensOf c).map TokRes.tok ++ r) =
      decodeLoop (n, a, kids ++ [c]) stk r := by
  match c with
  | .text s => simp [tokensOf, decodeLoop]
  | .elem n' a' cs =>
    have hl := decodeLoop_consumeList cs n' a' [] ((n, a, kids) :: stk)
      (TokRes.tok (Tok.endEl n') :: r)
    simp only [List.nil_append] at hl
    simp only [tokensOf, List.append_eq, List.map_cons, List.map_append,
      List.cons_append, List.append_assoc, List.singleton_append,
      List.map_nil, List.nil_append]
    simp only [decodeLoop]
    rw [hl]
    simp [decodeLoop]

/-- Consuming the tokens of a serialized sibling list appends those nodes to
the current frame's children. -/
theorem decodeLoop_consumeList (cs : List XmlNode) (n : XName)
    (a : List XAttr) (kids : List XmlNode) (stk : List Frame)
    (r : List TokRes) :
    decodeLoop (n, a, kids) stk ((tokensOfList cs).map TokRes.tok ++ r) =
      decodeLoop (n, a, kids ++ cs) stk r := by
  match cs with
  | [] => simp [tokensOfList]
  | c :: cs' =>
    have h1 := decodeLoop_consume c n a kids stk
      ((tokensOfList cs').map TokRes.tok ++ r)
    have h2 := decodeLoop_consumeList cs' n a (kids ++ [c]) stk r
    simp only [tokensOfList, List.map_append, List.append_assoc] at h1 h2 ⊢
    rw [h1, h2]
    simp

end

/-- Inversion: `decodeElement` inverts serialization — with the start tag consumed,
reading the serialized children followed by the matching end tag yields the
element and leaves the remainder unread. -/
theorem decodeElement_tokens (n : XName) (a : List XAttr)
    (cs : List XmlNode) (r : List TokRes) :
    decodeElement n a
        ((tokensOfList cs).map TokRes.tok ++ TokRes.tok (Tok.endEl n) :: r) =
      .ok (.elem n a cs, r) := by
  unfold decodeElement
  rw [decodeLoop_consumeList]
  simp [decodeLoop]

/-- Whether a tokenizer outcome is a start-element token. -/
def TokRes.isStartElement : TokRes → Bool
  | .tok (.startEl _ _) => true
  | _ => false

/-- The scan skips tokens that are neither start elements nor tokenizer
errors without changing the match flag. -/
theorem soapScan_skip (m : Bool) (pre rest : List TokRes)
    (hpre : ∀ t ∈ pre, t.isStartElement = false ∧ t ≠ .err) :
    soapScan m (pre ++ rest) = soapScan m rest := by
  induction pre with
  | nil => rfl
  | cons t pre ih =>
    have ht := hpre t (by simp)
    have ih' := ih (fun u hu => hpre u (by simp [hu]))
    match t with
    | .err => exact absurd rfl ht.2
    | .tok (.startEl n a) => simp [TokRes.isStartElement] at ht
    | .tok (.endEl n) => simpa [soapScan] using ih'
    | .tok (.cdata s) => simpa [soapScan] using ih'
    | .tok (.procInst s) => simpa [soapScan] using ih'
    | .tok (.comment s) => simpa [soapScan] using ih'

example : parseSOAPResponse [] = .error .unmarshalFailed := rfl

example :
    parseSOAPResponse
      [.tok (.startEl ⟨"", "Body"⟩ []), .tok (.startEl ⟨"", "a"⟩ []),
        .tok (.cdata "x"), .tok (.endEl ⟨"", "a"⟩)] =
      .ok (.elem ⟨"", "a"⟩ [] [.text "x"]) := rfl

/-- Whether a tokenizer outcome is a start-element token whose local name is
`Body` (the trigger of the scan's `match` flag, fakesoap.go line 83). -/
def TokRes.isBodyStart : TokRes → Bool
  | .tok (.startEl n _) => n.localName == "Body"
  | _ => false

/-- Scanning with the match flag unset past outcomes none of which is a
`Body` start element either stops with the generic unmarshal failure (at a
tokenizer error in the prefix) or reaches the rest of the stream with the
flag still unset. -/
theorem soapScan_false_transfer (u : List TokRes)
    (h : ∀ t ∈ u, t.isBodyStart = false) (rest : List TokRes) :
    soapScan false (u ++ rest) = .error .unmarshalFailed ∨
      soapScan false (u ++ rest) = soapScan false rest := by
  induction u with
  | nil => exact Or.inr rfl
  | cons t u ih =>
    have ht := h t (by simp)
    have ih' := ih fun s hs => h s (by simp [hs])
    match t with
    | .err => exact Or.inl rfl
    | .tok (.startEl n a) =>
      have hn : ¬(n.localName = "Body") := by
        simpa [TokRes.isBodyStart] using ht
      simpa [soapScan, hn] using ih'
    | .tok (.endEl n) => simpa [soapScan] using ih'
    | .tok (.cdata s) => simpa [soapScan] using ih'
    | .tok (.procInst s) => simpa [soapScan] using ih'
    | .tok (.comment s) => simpa [soapScan] using ih'

/-- Scanning with the match flag set past outcomes none of which is a start
element either stops with the generic unmarshal failure (at a tokenizer
error in the prefix) or reaches the rest of the stream with the flag still
set. -/
theorem soapScan_true_transfer (v : List TokRes)
    (h : ∀ t ∈ v, t.isStartElement = false) (rest : List TokRes) :
    soapScan true (v ++ rest) = .error .unmarshalFailed ∨
      soapScan true (v ++ rest) = soapScan true rest := by
  induction v with
  | nil => exact Or.inr rfl
  | cons t v ih =>
    have ht := h t (by simp)
    have ih' := ih fun s hs => h s (by simp [hs])
    match t with
    | .err => exact Or.inl rfl
    | .tok (.startEl n a) => simp [TokRes.isStartElement] at ht
    | .tok (.endEl n) => simpa [soapScan] using ih'
    | .tok (.cdata s) => simpa [soapScan] using ih'
    | .tok (.procInst s) => simpa [soapScan] using ih'
    | .tok (.comment s) => simpa [soapScan] using ih'

/-- The condition of the missing-body claim: either no `Body` start element
occurs in the stream, or the stream splits at a first `Body` start element
after which no start element occurs at all. -/
def NoBodyContent (ts : List TokRes) : Prop :=
  (∀ t ∈ ts, t.isBodyStart = false) ∨
    ∃ s1 b s2, ts = s1 ++ b :: s2 ∧ b.isBodyStart = true ∧
      (∀ t ∈ s1, t.isBodyStart = false) ∧ ∀ t ∈ s2, t.isStartElement = false

/-- Core missing-body lemma: under `NoBodyContent` the scan ends in the
generic unmarshal failure. -/
theorem soapScan_noBodyContent (ts : List TokRes) (h : NoBodyContent ts) :
    parseSOAPResponse ts = .error .unmarshalFailed := by
  unfold parseSOAPResponse
  rcases h with h | ⟨s1, b, s2, rfl, hb, h1, h2⟩
  · rcases soapScan_false_transfer ts h [] with hc | hc
    · simpa using hc
    · simpa using hc
  · rcases soapScan_false_transfer s1 h1 (b :: s2) with hc | hc
    · exact hc
    · rw [hc]
      match b with
      | .tok (.startEl n a) =>
        have hn : n.localName = "Body" := by
          simpa [TokRes.isBodyStart] using hb
        rw [soapScan]
        simp only [hn, if_true, if_false, Bool.false_eq_true, reduceIte]
        rcases soapScan_true_transfer s2 h2 [] with hd | hd
        · simpa using hd
        · simpa using hd
      | .err => simp [TokRes.isBodyStart] at hb
      | .tok (.endEl n) => simp [TokRes.isBodyStart] at hb
      | .tok (.cdata s) => simp [TokRes.isBodyStart] at hb
      | .tok (.procInst s) => simp [TokRes.isBodyStart] at hb
      | .tok (.comment s) => simp [TokRes.isBodyStart] at hb

/-- Scanning the header tokens sets the match flag: the `Envelope` start
element does not match, the `Body` start element does. -/
theorem soapScan_headerTokens (rest : List TokRes) :
    soapScan false (headerTokens ++ rest) = soapScan true rest := rfl

/-- C1. Round-trip: on the token stream of `soapEnvelope payload`, where the
payload tokenizes to leading non-element tokens followed by exactly one
well-formed top-level element (serialized as `tokensOf`) and arbitrary
trailing tokens, `parseSOAPResponse` recovers that element's decoded value
unchanged. -/
theorem unwrap_wrap_roundtrip (n : XName) (a : List XAttr)
    (cs : List XmlNode) (pre post : List TokRes)
    (hpre : ∀ t ∈ pre, t.isStartElement = false ∧ t ≠ .err) :
    parseSOAPResponse
        (headerTokens ++ pre ++ (tokensOf (.elem n a cs)).map TokRes.tok ++
          post ++ footerTokens) =
      .ok (.elem n a cs) := by
  unfold parseSOAPResponse
  simp only [List.append_assoc]
  rw [soapScan_headerTokens, soapScan_skip true pre _ hpre]
  simp only [tokensOf, List.append_eq, List.map_cons, List.map_append,
    List.cons_append, List.append_assoc, List.singleton_append]
  rw [soapScan]
  simp only [if_true]
  rw [decodeElement_tokens]
  rfl

/-- C1 witness: a concrete round trip, an envelope-wrapped
`<ns:logonResponse>42</ns:logonResponse>` preceded by whitespace character
data, decodes back to that element. -/
theorem unwrap_wrap_roundtrip_witness :
    parseSOAPResponse
        (headerTokens ++ [TokRes.tok (Tok.cdata " ")] ++
          (tokensOf (.elem ⟨"urn:zarafa", "logonResponse"⟩ [] [.text "42"])).map
            TokRes.tok ++ [] ++ footerTokens) =
      .ok (.elem ⟨"urn:zarafa", "logonResponse"⟩ [] [.text "42"]) :=
  unwrap_wrap_roundtrip _ _ _ _ _ (by decide)

/-- C2 counterexample: the claim's bit-exact equality against the spec's
one-line header literal fails already at the empty payload, because the
code's header contains a newline between the XML declaration and the
envelope open tag. -/
theorem soapEnvelope_specHeader_counterexample :
    soapEnvelope "" ≠ specHeader ++ "" ++ soapFooter := by decide

set_option maxRecDepth 40000 in
/-- C2 (amended): `soapEnvelope` returns exactly header ++ payload ++ footer
(it is a pure function, hence deterministic), where the header equals the
spec's literal except for a single newline between the XML declaration and
the `<SOAP-ENV:Envelope` open tag. -/
theorem soapEnvelope_concat (p : String) :
    soapEnvelope p = soapHeader ++ p ++ soapFooter ∧
      soapHeader = soapHeaderDecl ++ "\n" ++ soapHeaderEnvelope ∧
      specHeader = soapHeaderDecl ++ soapHeaderEnvelope :=
  ⟨rfl, by decide, by decide⟩

/-- C3: if no start element named `Body` occurs in the stream, or no further
start element follows the first `Body`, `parseSOAPResponse` fails with the
generic `failed to unmarshal SOAP response body` error (the spec's
"no matching body content" failure) and decodes nothing. -/
theorem parseSOAPResponse_missingBody (ts : List TokRes)
    (h : NoBodyContent ts) :
    parseSOAPResponse ts = .error .unmarshalFailed :=
  soapScan_noBodyContent ts h

/-- C3 witness: a concrete stream with a non-`Body` element and no `Body`
yields the missing-body failure. -/
theorem parseSOAPResponse_missingBody_witness :
    parseSOAPResponse
        [TokRes.tok (Tok.startEl ⟨"", "NotBody"⟩ []),
          TokRes.tok (Tok.cdata "x")] =
      .error .unmarshalFailed :=
  parseSOAPResponse_missingBody _ (Or.inl (by decide))

/-- C10 counterexample: a tokenizer error occurring after the single-element
decode has begun IS surfaced to the caller (as the syntax error), so
`parseSOAPResponse` does not, for every input stream, hide the underlying
tokenizer error. -/
theorem parseSOAPResponse_decodeError_counterexample :
    parseSOAPResponse
        [TokRes.tok (Tok.startEl ⟨"", "Body"⟩ []),
          TokRes.tok (Tok.startEl ⟨"", "a"⟩ []), TokRes.err] =
      .error .xmlSyntaxError := rfl

/-- C10 (amended): tokenizer errors reached by the token-scan loop itself —
that is, when the stream before the error contains no post-`Body` start
element, so no decode has begun — are discarded and treated exactly like
end of stream: the caller gets the one generic unmarshal-failure error,
the same result as for the stream truncated at the error. Errors reached
once the single-element decode has begun are surfaced by that decode. -/
theorem parseSOAPResponse_scanSwallowsError (s1 s2 : List TokRes)
    (h : NoBodyContent s1) :
    parseSOAPResponse (s1 ++ TokRes.err :: s2) = .error .unmarshalFailed ∧
      parseSOAPResponse (s1 ++ TokRes.err :: s2) = parseSOAPResponse s1 := by
  have htrunc : parseSOAPResponse s1 = .error .unmarshalFailed :=
    soapScan_noBodyContent s1 h
  have hmain : parseSOAPResponse (s1 ++ TokRes.err :: s2) =
      .error .unmarshalFailed := by
    unfold parseSOAPResponse
    rcases h with h | ⟨u, b, v, rfl, hb, h1, h2⟩
    · rcases soapScan_false_transfer s1 h (TokRes.err :: s2) with hc | hc
      · exact hc
      · rw [hc]; rfl
    · simp only [List.append_assoc, List.cons_append]
      rcases soapScan_false_transfer u h1 (b :: (v ++ TokRes.err :: s2))
        with hc | hc
      · exact hc
      · rw [hc]
        match b with
        | .tok (.startEl n a) =>
          have hn : n.localName = "Body" := by
            simpa [TokRes.isBodyStart] using hb
          rw [soapScan]
          simp only [hn, if_true, if_false, Bool.false_eq_true, reduceIte]
          rcases soapScan_true_transfer v h2 (TokRes.err :: s2) with hd | hd
          · exact hd
          · rw [hd]; rfl
        | .err => simp [TokRes.isBodyStart] at hb
        | .tok (.endEl n) => simp [TokRes.isBodyStart] at hb
        | .tok (.cdata s) => simp [TokRes.isBodyStart] at hb
        | .tok (.procInst s) => simp [TokRes.isBodyStart] at hb
        | .tok (.comment s) => simp [TokRes.isBodyStart] at hb
  exact ⟨hmain, hmain.trans htrunc.symm⟩

/-- C10 witness: a concrete stream whose tokenizer error precedes any
post-`Body` start element is swallowed into the generic failure. -/
theorem parseSOAPResponse_scanSwallowsError_witness :
    parseSOAPResponse
        ([TokRes.tok (Tok.startEl ⟨"", "Body"⟩ []),
            TokRes.tok (Tok.cdata "x")] ++
          TokRes.err :: [TokRes.tok (Tok.startEl ⟨"", "late"⟩ [])]) =
      .error .unmarshalFailed :=
  (parseSOAPResponse_scanSwallowsError _ _
    (Or.inr ⟨[], TokRes.tok (Tok.startEl ⟨"", "Body"⟩ []),
      [TokRes.tok (Tok.cdata "x")], rfl, by decide, by decide, by decide⟩)).1

/-- A parsed URL: the fields of `net/url.URL` that `NewSOAPClient` uses. -/
structure URL where
  scheme : String
  host : String
  path : String
deriving DecidableEq, Repr

/-- Go `net/url.URL.String` restricted to the absolute URLs this client
handles: scheme, `://`, host, path. -/
def URL.toString (u : URL) : String :=
  u.scheme ++ "://" ++ u.host ++ u.path

/-- Errors `NewSOAPClient` can return. -/
inductive ClientError where
  | invalidScheme (scheme : String)
  | poolConfig
  | parseError
deriving DecidableEq, Repr

/-- Splits a character list at the first occurrence of `://`, accumulating
the scheme in reverse. -/
def splitSchemeAux : List Char → List Char → Option (List Char × List Char)
  | _, [] => none
  | acc, ':' :: '/' :: '/' :: rest => some (acc.reverse, rest)
  | acc, c :: rest => splitSchemeAux (c :: acc) rest

/-- Splits a character list at the first `/`, the start of the path. -/
def splitHostPath : List Char → List Char → List Char × List Char
  | acc, [] => (acc.reverse, [])
  | acc, '/' :: rest => (acc.reverse, '/' :: rest)
  | acc, c :: rest => splitHostPath (c :: acc) rest

/-- Modelled from the spec: a minimal stand-in for `net/url.Parse` (standard
library, not repository code) sufficient for the URIs the client handles —
an absolute URI splits into scheme, host and path at `://` and the first
following `/`; a string without `://` parses as a scheme-relative reference
(empty scheme); an empty scheme before `://` is a parse error. -/
def parseURLString (s : String) : Except ClientError URL :=
  match splitSchemeAux [] s.toList with
  | none => .ok ⟨"", "", s⟩
  | some ([], _) => .error .parseError
  | some (sc, rest) =>
    let hp := splitHostPath [] rest
    .ok ⟨⟨sc⟩, ⟨hp.1⟩, ⟨hp.2⟩⟩

/-- Connection-pool accounting: how many pooled connections are idle and how
many are currently acquired by in-flight requests. -/
structure PoolState where
  idle : Nat
  acquired : Nat
deriving DecidableEq, Repr

/-- A gncp connection pool: its configured capacity and its accounting
state. -/
structure ConnPool where
  capacity : Nat
  state : PoolState
deriving DecidableEq, Repr

/-- Modelled from the spec: `gncp.NewPool(initConns, maxConns, connect)`
(external library) — fails on an invalid configuration, otherwise creates a
pool with `initConns` eagerly dialed idle connections and none acquired.
`NewSOAPClient` passes `initConns = 0`, so its pool starts empty, and
connections are dialed lazily on first acquire. -/
def gncpNewPool (initConns maxConns : Nat) : Except ClientError ConnPool :=
  if maxConns = 0 ∨ maxConns < initConns then .error .poolConfig
  else .ok ⟨maxConns, ⟨initConns, 0⟩⟩

/-- Modelled from the spec: the socket transport's pool-capacity upper-bound
constant (`DefaultUnixMaxConnections`, repository code outside src/); the
spec fixes only that it is a positive constant. -/
def DefaultUnixMaxConnections : Nat := 100

/-- A net.Dialer as the socket client uses it: only its timeout matters. -/
structure Dialer where
  timeoutSeconds : Nat
deriving DecidableEq, Repr

/-- Modelled from the spec: the default unix-socket dialer
(`DefaultUnixDialer`, repository code outside src/), carrying the default
dial timeout. -/
def DefaultUnixDialer : Dialer := ⟨30⟩

/-- Modelled from the spec: the hardcoded default server URI (`DefaultURI`,
repository code outside src/), an absolute http URI. -/
def DefaultURI : String := "http://127.0.0.1:236"

/-- Marker for the process-wide default HTTP client built by http.go's
`init` (`DefaultHTTPClient`); every `SOAPHTTPClient` shares it. -/
inductive HTTPClientRef where
  | defaultHTTPClient
deriving DecidableEq, Repr

/-- The two implementations behind the `SOAPClient` interface
(fakesoap.go lines 97-108): `SOAPHTTPClient` with its client and URI
string, and `SOAPSocketClient` with its dialer, pool and socket path. -/
inductive SOAPClientValue where
  | httpClient (client : HTTPClientRef) (uri : String)
  | socketClient (dialer : Dialer) (pool : ConnPool) (path : String)
deriving DecidableEq, Repr

/-- The result of `NewSOAPClient`, with an explicit marker for a Go runtime
panic (nil-pointer dereference), which the safety claim requires to be
unreachable. -/
inductive ClientOutcome where
  | ok (c : SOAPClientValue)
  | fail (e : ClientError)
  | panics
deriving DecidableEq, Repr

/-- The scheme switch of `NewSOAPClient` (fakesoap.go lines 122-145):
`https` falls through to `http` (shared HTTP client, URI string as
destination); `file` builds a socket client around an eagerly created pool
of capacity `DefaultUnixMaxConnections` with the URI path as socket path;
anything else is an invalid-scheme error. -/
def dispatchScheme (u : URL) : ClientOutcome :=
  if u.scheme = "https" ∨ u.scheme = "http" then
    .ok (.httpClient .defaultHTTPClient u.toString)
  else if u.scheme = "file" then
    match gncpNewPool 0 DefaultUnixMaxConnections with
    | .error e => .fail e
    | .ok pool => .ok (.socketClient DefaultUnixDialer pool u.path)
  else .fail (.invalidScheme u.scheme)

/-- Go `NewSOAPClient(uri)` (fakesoap.go lines 112-146). When `uri` is nil
the code calls `uri.Parse(DefaultURI)` on the nil receiver; Go's
`(*url.URL).Parse` parses the reference string first and only dereferences
the receiver (via `ResolveReference`) when the reference has no scheme, so
this is a nil-pointer panic exactly when the parsed default URI is
scheme-relative. Otherwise the parsed URI goes through the scheme switch. -/
def NewSOAPClient (uri : Option URL) : ClientOutcome :=
  match uri with
  | none =>
    match parseURLString DefaultURI with
    | .error e => .fail e
    | .ok ref => if ref.scheme = "" then .panics else dispatchScheme ref
  | some u => dispatchScheme u

/-- C4: scheme dispatch of `NewSOAPClient` — `http`/`https` yield a
`SOAPHTTPClient` sharing the process-wide default HTTP client with the URI
string as destination; `file` yields a `SOAPSocketClient` with the URI path
as socket path and an eagerly created, initially empty pool; any other
scheme yields the invalid-scheme error and no client. -/
theorem NewSOAPClient_schemeDispatch (u : URL) :
    ((u.scheme = "http" ∨ u.scheme = "https") →
      NewSOAPClient (some u) =
        .ok (.httpClient .defaultHTTPClient u.toString)) ∧
    (u.scheme = "file" →
      NewSOAPClient (some u) =
        .ok (.socketClient DefaultUnixDialer
          ⟨DefaultUnixMaxConnections, 0, 0⟩ u.path)) ∧
    (u.scheme ≠ "http" → u.scheme ≠ "https" → u.scheme ≠ "file" →
      NewSOAPClient (some u) = .fail (.invalidScheme u.scheme)) := by
  refine ⟨fun h => ?_, fun h => ?_, fun h1 h2 h3 => ?_⟩
  · rcases h with h | h <;>
      simp [NewSOAPClient, dispatchScheme, h]
  · simp [NewSOAPClient, dispatchScheme, h, gncpNewPool,
      DefaultUnixMaxConnections]
  · simp [NewSOAPClient, dispatchScheme, h1, h2, h3]

/-- C4 witness: concrete dispatches for an http URI, a file URI and an
unsupported ftp URI. -/
theorem NewSOAPClient_schemeDispatch_witness :
    NewSOAPClient (some ⟨"http", "h", "/p"⟩) =
      .ok (.httpClient .defaultHTTPClient "http://h/p") ∧
    NewSOAPClient (some ⟨"file", "", "/run/kopano/server.sock"⟩) =
      .ok (.socketClient DefaultUnixDialer
        ⟨DefaultUnixMaxConnections, 0, 0⟩ "/run/kopano/server.sock") ∧
    NewSOAPClient (some ⟨"ftp", "h", "/p"⟩) =
      .fail (.invalidScheme "ftp") :=
  ⟨(NewSOAPClient_schemeDispatch ⟨"http", "h", "/p"⟩).1 (Or.inl rfl),
    (NewSOAPClient_schemeDispatch ⟨"file", "", "/run/kopano/server.sock"⟩).2.1
      rfl,
    (NewSOAPClient_schemeDispatch ⟨"ftp", "h", "/p"⟩).2.2
      (by decide) (by decide) (by decide)⟩

/-- C5: calling `NewSOAPClient` with an absent (nil) URI parses the
hardcoded default URI, proceeds with that URI's scheme dispatch, and does
not panic (the nil-receiver `Parse` would dereference the nil receiver only
for a scheme-relative default URI, and the hardcoded default is absolute);
with the default URI's http scheme the result is an HTTP client. -/
theorem NewSOAPClient_nilDefault :
    (∃ u, parseURLString DefaultURI = .ok u ∧ u.scheme ≠ "" ∧
      NewSOAPClient none = dispatchScheme u) ∧
    NewSOAPClient none ≠ .panics ∧
    NewSOAPClient none =
      .ok (.httpClient .defaultHTTPClient "http://127.0.0.1:236") :=
  ⟨⟨⟨"http", "127.0.0.1:236", ""⟩, rfl, by decide, rfl⟩, by decide, by decide⟩

/-- A pool operation `SOAPSocketClient.DoRequest` performs on its pool, in
order: `removed` is `Pool.Remove(c)`; `released` is `c.Close()` on a gncp
pooled connection, which returns it to the idle pool; `bodyClosed` is
`resp.Body.Close()`. -/
inductive PoolEvent where
  | released
  | removed
  | bodyClosed
deriving DecidableEq, Repr

/-- The environment's outcome for one iteration of the
`SOAPSocketClient.DoRequest` loop: pool acquisition times out, the envelope
write fails, reading/parsing the HTTP-framed response fails, or a response
arrives with the given `Connection` header value (empty string when the
header is absent), status code, and body token stream. -/
inductive SocketAttempt where
  | acquireTimeout
  | writeError
  | readError
  | response (connHeader : String) (status : Nat) (body : List TokRes)
deriving Repr

/-- What a `SOAPSocketClient.DoRequest` call produces: its return value and
the ordered pool operations it performed. -/
structure SocketResult where
  result : Except SoapError XmlNode
  poolEvents : List PoolEvent
deriving Repr

/-- Go `(*SOAPSocketClient).DoRequest` (fakesoap.go lines 180-231) as a
function of the per-iteration environment outcomes. Each loop iteration:
acquire a connection from the pool with timeout — on failure return the
open-socket error; write the envelope — on failure `Pool.Remove` the
connection and `continue` with the next iteration; read the HTTP-framed
response — on failure `Pool.Remove` and return the read error; then defer
(run at return) closing the response body followed by `c.Close()` (back to
the pool) when the `Connection` header equals `keep-alive`, else
`Pool.Remove(c)`; return the status error for a non-200 status, else the
result of `parseSOAPResponse` on the body. An exhausted outcome script
means the pool can no longer hand out a connection, i.e. acquisition
fails. -/
def SOAPSocketClient.DoRequest : List SocketAttempt → SocketResult
  | [] => ⟨.error .openSocketFailed, []⟩
  | .acquireTimeout :: _ => ⟨.error .openSocketFailed, []⟩
  | .writeError :: rest =>
    let r := SOAPSocketClient.DoRequest rest
    ⟨r.result, .removed :: r.poolEvents⟩
  | .readError :: _ => ⟨.error .readSocketFailed, [.removed]⟩
  | .response connHeader status body :: _ =>
    let cleanup : PoolEvent :=
      if connHeader = "keep-alive" then .released else .removed
    if status = 200 then
      ⟨parseSOAPResponse body, [.bodyClosed, cleanup]⟩
    else
      ⟨.error (.badStatus status), [.bodyClosed, cleanup]⟩

/-- C6: every write failure removes the acquired connection from the pool
and restarts the whole send from the acquisition step; the retry has no
maximum count — any number `k` of consecutive write failures is retried
through, each contributing exactly one pool removal, after which the call
behaves as the remaining outcomes dictate; when the script is exhausted
(i.e. only when acquisition fails), the loop ends with the open-socket
error. -/
theorem DoRequest_writeRetry_unbounded (k : Nat) (rest : List SocketAttempt) :
    SOAPSocketClient.DoRequest (List.replicate k .writeError ++ rest) =
      ⟨(SOAPSocketClient.DoRequest rest).result,
        List.replicate k .removed ++
          (SOAPSocketClient.DoRequest rest).poolEvents⟩ ∧
    SOAPSocketClient.DoRequest (List.replicate k .writeError) =
      ⟨.error .openSocketFailed, List.replicate k .removed⟩ := by
  induction k with
  | zero => exact ⟨rfl, rfl⟩
  | succ k ih =>
    refine ⟨?_, ?_⟩
    · simp only [List.replicate_succ, List.cons_append,
        SOAPSocketClient.DoRequest, List.append_eq, ih.1]
    · simp only [List.replicate_succ, SOAPSocketClient.DoRequest, ih.2]

/-- C7: a read/parse failure after a successful write removes the
connection and fails the whole call immediately with the read error — the
remaining outcomes are never consulted, so this path is never retried. -/
theorem DoRequest_readFail_fatal (rest : List SocketAttempt) :
    SOAPSocketClient.DoRequest (.readError :: rest) =
      ⟨.error .readSocketFailed, [.removed]⟩ := rfl

/-- C8: for every successfully parsed response, the deferred cleanup closes
the response body and then returns the connection to the pool when the
`Connection` header equals `keep-alive`, and removes it for any other value
(including absence, the empty string); this cleanup runs on every exit path
— both the non-200 status return and the decode return — and the returned
value is the status error or the decode result accordingly. -/
theorem DoRequest_responseCleanup (connHeader : String) (status : Nat)
    (body : List TokRes) (rest : List SocketAttempt) :
    (connHeader = "keep-alive" →
      (SOAPSocketClient.DoRequest
          (.response connHeader status body :: rest)).poolEvents =
        [.bodyClosed, .released]) ∧
    (connHeader ≠ "keep-alive" →
      (SOAPSocketClient.DoRequest
          (.response connHeader status body :: rest)).poolEvents =
        [.bodyClosed, .removed]) ∧
    (SOAPSocketClient.DoRequest
        (.response connHeader status body :: rest)).result =
      (if status = 200 then parseSOAPResponse body
        else .error (.badStatus status)) := by
  refine ⟨fun h => ?_, fun h => ?_, ?_⟩ <;>
    simp only [SOAPSocketClient.DoRequest] <;>
    split <;> simp [*]

/-- C8 witness: a keep-alive response on the non-200 path releases the
connection after closing the body; a `close` response on the 200/decode
path removes it. -/
theorem DoRequest_responseCleanup_witness :
    (SOAPSocketClient.DoRequest
        [.response "keep-alive" 500 []]).poolEvents =
      [.bodyClosed, .released] ∧
    (SOAPSocketClient.DoRequest [.response "close" 200 []]).poolEvents =
      [.bodyClosed, .removed] :=
  ⟨(DoRequest_responseCleanup "keep-alive" 500 [] []).1 rfl,
    (DoRequest_responseCleanup "close" 200 [] []).2.1 (by decide)⟩

/-- Modelled from the spec: one atomic operation on the gncp pool (the pool
is internally synchronized, so a concurrent history is an arbitrary
interleaving, i.e. an arbitrary sequence, of these atomic operations).
`acquireIdle` hands an idle connection to an acquirer; `acquireNew` dials a
fresh connection when capacity allows; `release` returns an acquired
connection to the idle set; `remove` closes an acquired connection and
frees its capacity. -/
inductive PoolOp where
  | acquireIdle
  | acquireNew
  | release
  | remove
deriving DecidableEq, Repr

/-- Modelled from the spec: effect of one atomic pool operation on the pool
accounting, for a pool of capacity `cap`. `none` means the operation is not
enabled — an acquirer finding no idle connection and no spare capacity
waits (and eventually times out) rather than proceeding, and never changes
the state. -/
def poolStep (cap : Nat) (s : PoolState) : PoolOp → Option PoolState
  | .acquireIdle =>
    if 0 < s.idle then some ⟨s.idle - 1, s.acquired + 1⟩ else none
  | .acquireNew =>
    if s.idle + s.acquired < cap then some ⟨s.idle, s.acquired + 1⟩ else none
  | .release =>
    if 0 < s.acquired then some ⟨s.idle + 1, s.acquired - 1⟩ else none
  | .remove =>
    if 0 < s.acquired then some ⟨s.idle, s.acquired - 1⟩ else none

/-- Running an interleaving of pool operations from a state; a disabled
operation (blocked or timed-out acquirer) leaves the state unchanged. -/
def poolRun (cap : Nat) (s : PoolState) : List PoolOp → PoolState
  | [] => s
  | op :: ops => poolRun cap ((poolStep cap s op).getD s) ops

/-- One enabled pool operation preserves the capacity bound. -/
theorem poolStep_capacity (cap : Nat) (s s' : PoolState) (op : PoolOp)
    (hs : s.idle + s.acquired ≤ cap) (h : poolStep cap s op = some s') :
    s'.idle + s'.acquired ≤ cap := by
  cases op <;> simp only [poolStep] at h <;> split at h <;>
    simp only [Option.some.injEq, reduceCtorEq] at h <;>
    (subst h; simp; omega)

/-- Any interleaving of pool operations preserves the capacity bound. -/
theorem poolRun_capacity (cap : Nat) (ops : List PoolOp) (s : PoolState)
    (hs : s.idle + s.acquired ≤ cap) :
    (poolRun cap s ops).idle + (poolRun cap s ops).acquired ≤ cap := by
  induction ops generalizing s with
  | nil => exact hs
  | cons op ops ih =>
    rw [poolRun]
    rcases h : poolStep cap s op with _ | s'
    · simpa [h] using ih s hs
    · simpa [h] using ih s' (poolStep_capacity cap s s' op hs h)

/-- C9: starting from the empty pool of capacity `cap`, for every
interleaving of concurrent acquire/release/remove operations the number of
acquired connections plus the idle pool size never exceeds `cap`; and in a
full pool with no idle connections, both forms of acquisition are disabled
— the extra acquirer waits or times out with the state unchanged, never
silently exceeding capacity. -/
theorem pool_capacity_invariant (cap : Nat) (ops : List PoolOp) :
    (poolRun cap ⟨0, 0⟩ ops).idle + (poolRun cap ⟨0, 0⟩ ops).acquired ≤
        cap ∧
    ∀ s : PoolState, s.idle = 0 → s.acquired = cap →
      poolStep cap s .acquireIdle = none ∧
        poolStep cap s .acquireNew = none := by
  refine ⟨poolRun_capacity cap ops ⟨0, 0⟩ (by simp), fun s h1 h2 => ⟨?_, ?_⟩⟩
  · simp [poolStep, h1]
  · simp [poolStep, h1, h2]

/-- C9 witness: a concrete interleaving on a pool of capacity 2 stays within
capacity, and the full pool with no idle connections refuses both
acquisition forms. -/
theorem pool_capacity_invariant_witness :
    (poolRun 2 ⟨0, 0⟩
          [.acquireNew, .acquireNew, .acquireNew, .release, .acquireIdle,
            .remove]).idle +
        (poolRun 2 ⟨0, 0⟩
          [.acquireNew, .acquireNew, .acquireNew, .release, .acquireIdle,
            .remove]).acquired ≤ 2 ∧
    poolStep 2 ⟨0, 2⟩ .acquireIdle = none ∧
      poolStep 2 ⟨0, 2⟩ .acquireNew = none :=
  ⟨(pool_capacity_invariant 2
      [.acquireNew, .acquireNew, .acquireNew, .release, .acquireIdle,
        .remove]).1,
    (pool_capacity_invariant 2 []).2 ⟨0, 2⟩ rfl rfl⟩
